import Mathlib

/-!
Shallow embedding of `src/main.py` (PDN calculator with a three-tier regional
wage loader).  Python floats are modelled as rationals (`ℚ`); Python dicts as
insertion-ordered association lists; exceptions as `Except`/`Option`.  The
behaviour of the standard-library calls the source relies on (`str.lower`,
`str.strip`, `str.replace`, `float`, `round`, `json.dump`/`json.load`,
`pandas` cell access, `requests`) is modelled explicitly below, next to each
definition, at the level of detail the source exercises.
-/

/-- Models Python `str.lower()` on one character, for the alphabets the source
uses: ASCII letters and the Cyrillic block (А..Я and Ё). -/
def pyCharLower (c : Char) : Char :=
  if 65 ≤ c.toNat ∧ c.toNat ≤ 90 then Char.ofNat (c.toNat + 32)
  else if 1040 ≤ c.toNat ∧ c.toNat ≤ 1071 then Char.ofNat (c.toNat + 32)
  else if c.toNat = 1025 then Char.ofNat 1105
  else c

/-- Models Python `str.lower()`. -/
def pyLower (s : String) : String :=
  String.mk (s.toList.map pyCharLower)

/-- Models Python `str.strip()`: drop whitespace from both ends. -/
def pyStripL (cs : List Char) : List Char :=
  ((cs.dropWhile Char.isWhitespace).reverse.dropWhile Char.isWhitespace).reverse

/-- Models Python `str.strip()` on strings. -/
def pyStrip (s : String) : String :=
  String.mk (pyStripL s.toList)

/-- `n` is a leading segment of `h`. -/
def leadsList : List Char → List Char → Bool
  | [], _ => true
  | _ :: _, [] => false
  | a :: n1, b :: h1 => a = b && leadsList n1 h1

/-- `n` occurs contiguously inside `h`. -/
def infixList (n h : List Char) : Bool :=
  match h with
  | [] => n.isEmpty
  | _ :: t => leadsList n h || infixList n t

/-- Models the Python substring test `needle in haystack`. -/
def strContains (haystack needle : String) : Bool :=
  infixList needle.toList haystack.toList

/-- Models Python `s.replace(c, "")` for a one-character pattern. -/
def pyReplaceDel (s : String) (c : Char) : String :=
  String.mk (s.toList.filter (fun x => x ≠ c))

/-- Models Python `s.replace(a, b)` for one-character pattern and replacement. -/
def pyReplaceChar (s : String) (a b : Char) : String :=
  String.mk (s.toList.map (fun x => if x = a then b else x))

/-- Value of a list of decimal digit characters. -/
def natOfDigits (cs : List Char) : ℕ :=
  cs.foldl (fun a c => a * 10 + (c.toNat - 48)) 0

/-- All characters are decimal digits. -/
def allDigits (cs : List Char) : Bool :=
  cs.all (fun c => c.isDigit)

/-- Models Python `float(s)` on an unsigned token: digits with at most one
decimal point, at least one digit overall; the value `ip.frac` is the rational
`(ip * 10^len + frac) / 10^len`, built with `mkRat` so that it evaluates by
kernel reduction.  Exotic accepted forms that cannot be values in `ℚ` or never
arise from the source's inputs (`nan`, `inf`, exponents, underscores,
surrounding whitespace) are modelled as parse failures. -/
def parsePyFloatCore (cs : List Char) : Option ℚ :=
  let ip := cs.takeWhile (fun c => c ≠ '.')
  let rest := cs.dropWhile (fun c => c ≠ '.')
  match rest with
  | [] =>
    if ip.isEmpty then none
    else if allDigits ip then some (mkRat (natOfDigits ip) 1) else none
  | _ :: frac =>
    if frac.any (fun c => c = '.') then none
    else if ip.isEmpty ∧ frac.isEmpty then none
    else if allDigits ip ∧ allDigits frac then
      some (mkRat (natOfDigits ip * 10 ^ frac.length + natOfDigits frac) (10 ^ frac.length))
    else none

/-- Models Python `float(s)` including an optional sign. -/
def parsePyFloat (s : String) : Option ℚ :=
  match s.toList with
  | '-' :: cs => (parsePyFloatCore cs).map (fun q => -q)
  | '+' :: cs => parsePyFloatCore cs
  | cs => parsePyFloatCore cs

/-- Multiplication by 100 expressed on the components of a rational, so that
it evaluates by kernel reduction; `ratMul100_eq` proves it equals `q * 100`. -/
def ratMul100 (q : ℚ) : ℚ :=
  mkRat (q.num * 100) q.den

/-- Round to the nearest integer, ties to even: the rounding used by Python
`round`.  Expressed on the components of the rational (`q.num / q.den : ℤ` is
`⌊q⌋`, and `q - ⌊q⌋ < 1/2` iff `2 * (q.num - ⌊q⌋ * q.den) < q.den`);
`roundHalfEven_eq_spec` proves it equals the textbook description. -/
def roundHalfEven (q : ℚ) : ℤ :=
  if 2 * (q.num - q.num / q.den * q.den) < (q.den : ℤ) then q.num / q.den
  else if (q.den : ℤ) < 2 * (q.num - q.num / q.den * q.den) then q.num / q.den + 1
  else if q.num / q.den % 2 = 0 then q.num / q.den else q.num / q.den + 1

/-- Models Python `round(q, 2)` on the rational model of floats:
`roundHalfEven (q * 100) / 100`. -/
def pyRound2 (q : ℚ) : ℚ :=
  mkRat (roundHalfEven (ratMul100 q)) 100

/-- `calculate_pdn` (src/main.py:29-36): raises `ValueError` when the income
is not positive, otherwise returns `round(total/income*100, 2)`. -/
def calculate_pdn (monthly_income : ℚ) (monthly_payments : List ℚ) : Except String ℚ :=
  if monthly_income ≤ 0 then Except.error "Доход должен быть больше 0"
  else Except.ok (pyRound2 (monthly_payments.sum / monthly_income * 100))

/-- A cell of a table as produced by `pandas` (`read_excel` / `read_html`):
either missing (`NaN`) or a value, modelled by its string rendering (numeric
cells are represented by the string `str(cell)` would give). -/
inductive Cell where
  | na
  | str (s : String)
deriving DecidableEq

/-- Models Python `str(cell)`: `str` of a pandas `NaN` is the string "nan". -/
def cellStr : Cell → String
  | Cell.na => "nan"
  | Cell.str s => s

/-- Models `pd.isna(cell)` on a raw cell. -/
def cellIsNa : Cell → Bool
  | Cell.na => true
  | Cell.str _ => false

/-- A pandas dataframe as the source uses it: ordered column labels and rows
of cells (each row aligned with the labels positionally). -/
structure DataFrame where
  cols : List String
  rows : List (List Cell)
deriving DecidableEq

/-- Models `row[label]`: the cell at the first column whose label matches
(missing positions read as `NaN`). -/
def lookupCell (cols : List String) (row : List Cell) (label : String) : Cell :=
  match cols.findIdx? (fun c => c == label) with
  | some i => row.getD i Cell.na
  | none => Cell.na

/-- The in-memory wage table: a Python dict modelled as an insertion-ordered
association list with unique keys. -/
abbrev WageTable := List (String × ℚ)

/-- Models `d[k] = v` on a Python dict: overwrite in place if the key exists,
otherwise append. -/
def dictInsert (d : WageTable) (k : String) (v : ℚ) : WageTable :=
  if d.any (fun p => p.1 == k) then
    d.map (fun p => if p.1 == k then (p.1, v) else p)
  else d ++ [(k, v)]

/-- Hex digit characters, lowercase, as Python's `json` writes them. -/
def hexDig (n : ℕ) : Char :=
  if n < 10 then Char.ofNat (48 + n) else Char.ofNat (87 + n)

/-- Value of a hex digit character (the JSON reader accepts both cases). -/
def hexVal (c : Char) : Option ℕ :=
  if 48 ≤ c.toNat ∧ c.toNat ≤ 57 then some (c.toNat - 48)
  else if 97 ≤ c.toNat ∧ c.toNat ≤ 102 then some (c.toNat - 87)
  else if 65 ≤ c.toNat ∧ c.toNat ≤ 70 then some (c.toNat - 55)
  else none

/-- JSON short escapes accepted after a backslash by `json.load`. -/
def unescapeChar : Char → Option Char
  | '"' => some '"'
  | '\\' => some '\\'
  | '/' => some '/'
  | 'b' => some (Char.ofNat 8)
  | 'f' => some (Char.ofNat 12)
  | 'n' => some (Char.ofNat 10)
  | 'r' => some (Char.ofNat 13)
  | 't' => some (Char.ofNat 9)
  | _ => none

/-- How `json.dump(..., ensure_ascii=False)` writes one character of a string:
quote, backslash and control characters are escaped, everything else —
non-ASCII included — is written verbatim. -/
def encodeJsonChar (c : Char) : List Char :=
  if c = '"' then ['\\', '"']
  else if c = '\\' then ['\\', '\\']
  else if c = Char.ofNat 8 then ['\\', 'b']
  else if c = Char.ofNat 9 then ['\\', 't']
  else if c = Char.ofNat 10 then ['\\', 'n']
  else if c = Char.ofNat 12 then ['\\', 'f']
  else if c = Char.ofNat 13 then ['\\', 'r']
  else if c.toNat < 32 then ['\\', 'u', '0', '0', hexDig (c.toNat / 16), hexDig (c.toNat % 16)]
  else [c]

/-- The body of a JSON string literal as `json.dump(..., ensure_ascii=False)`
writes it (src/main.py:51). -/
def encodeJsonStr (s : String) : String :=
  String.mk (s.toList.map encodeJsonChar).flatten

/-- How `json.load` reads back the body of a JSON string literal: inverse of
the escaping above (BMP `\uXXXX` escapes, no surrogate pairing — content that
would need it is covered by the `garbage` snapshot state). -/
def decodeJsonChars : List Char → Option (List Char)
  | [] => some []
  | c :: rest =>
    if c = '\\' then
      match rest with
      | [] => none
      | e :: t =>
        if e = 'u' then
          match t with
          | h1 :: h2 :: h3 :: h4 :: t2 =>
            match hexVal h1, hexVal h2, hexVal h3, hexVal h4 with
            | some a, some b, some x, some d =>
              (decodeJsonChars t2).map (fun l => Char.ofNat (a * 4096 + b * 256 + x * 16 + d) :: l)
            | _, _, _, _ => none
          | _ => none
        else
          match unescapeChar e with
          | some u => (decodeJsonChars t).map (fun l => u :: l)
          | none => none
    else if c = '"' then none
    else (decodeJsonChars rest).map (fun l => c :: l)

/-- String-literal body reader on strings. -/
def decodeJsonStr (s : String) : Option String :=
  (decodeJsonChars s.toList).map (fun l => String.mk l)

/-- Content of the snapshot file `data/regions_wages.json`, as far as the
source can observe it through `json.load`: either text that is not valid JSON
(`json.load` raises), or a flat JSON object with numeric values, keys stored
as the raw (escaped) string-literal bodies appearing in the file.  Numeric
values are carried structurally: Python floats round-trip exactly through
`json` (shortest-repr printing), modelled as the identity on `ℚ`. -/
inductive SnapContent where
  | garbage
  | obj (entries : List (String × ℚ))
deriving DecidableEq

/-- The spreadsheet file `data/rosstat_data_regions.xlsx`, as far as the
source observes it: a file `pd.read_excel(..., header=1)` fails on, or the
dataframe that call returns (headers taken from the second physical row). -/
inductive ExcelFile where
  | corrupt
  | table (df : DataFrame)
deriving DecidableEq

/-- The file-system state the loader reads and writes: the optional
spreadsheet and the optional snapshot file. -/
structure FS where
  excel : Option ExcelFile
  snapshot : Option SnapContent
deriving DecidableEq

/-- `save_local` (src/main.py:48-51): `json.dump(data, f, ensure_ascii=False,
indent=2)` — overwrites the snapshot with the table, string keys written with
`ensure_ascii=False` escaping. -/
def save_local (data : WageTable) (fs : FS) : FS :=
  { fs with snapshot := some (SnapContent.obj (data.map (fun p => (encodeJsonStr p.1, p.2)))) }

/-- Reading the entries of a flat JSON object into a Python dict: keys are
unescaped; duplicate keys follow dict semantics (last occurrence wins). -/
def decodeEntries (es : List (String × ℚ)) : Option WageTable :=
  es.foldl
    (fun acc e =>
      match acc, decodeJsonStr e.1 with
      | some d, some k => some (dictInsert d k e.2)
      | _, _ => none)
    (some [])

/-- `try_load_from_local` (src/main.py:41-46): returns `None` when the file
does not exist; otherwise runs `json.load`, whose failure on malformed
content is an uncaught exception (modelled as `Except.error`). -/
def try_load_from_local (fs : FS) : Except String (Option WageTable) :=
  match fs.snapshot with
  | none => Except.ok none
  | some SnapContent.garbage => Except.error "json.decoder.JSONDecodeError"
  | some (SnapContent.obj es) =>
    match decodeEntries es with
    | some t => Except.ok (some t)
    | none => Except.error "json.decoder.JSONDecodeError"

instance {ε α : Type} [DecidableEq ε] [DecidableEq α] : DecidableEq (Except ε α) :=
  fun x y =>
    match x, y with
    | Except.error a, Except.error b =>
      if h : a = b then Decidable.isTrue (by rw [h])
      else Decidable.isFalse (fun he => h (Except.error.inj he))
    | Except.ok a, Except.ok b =>
      if h : a = b then Decidable.isTrue (by rw [h])
      else Decidable.isFalse (fun he => h (Except.ok.inj he))
    | Except.error _, Except.ok _ => Decidable.isFalse (fun he => Except.noConfusion he)
    | Except.ok _, Except.error _ => Decidable.isFalse (fun he => Except.noConfusion he)

/-- One iteration of the row loop of the Excel tier (src/main.py:112-122).
`pd.isna(region)` on line 115 is applied to `str(...)`, a string, so it is
always false and only the `pd.isna(wage)` test can skip the row there; a
failed `float(...)` is caught by the bare `except` and skips the row. -/
def excelRow (cols : List String) (regionCol wageCol : String) (acc : WageTable)
    (row : List Cell) : WageTable :=
  let region := pyStrip (cellStr (lookupCell cols row regionCol))
  let wage := lookupCell cols row wageCol
  if cellIsNa wage then acc
  else
    match parsePyFloat (pyReplaceChar (pyReplaceDel (cellStr wage) ' ') ',' '.') with
    | none => acc
    | some w =>
      if !strContains (pyLower region) "округ" && !strContains (pyLower region) "российская"
      then dictInsert acc region (pyRound2 w)
      else acc

/-- The Excel parsing of `load_regions_data` (src/main.py:97-123): region
column is `df.columns[0]` (`IndexError` on an empty column list is caught by
the tier's `except`, modelled as `none`); wage column is the first header
containing "июль" (the loop breaks on the first match), else the last
column. -/
def excelTier (df : DataFrame) : Option WageTable :=
  match df.cols with
  | [] => none
  | c0 :: rest =>
    let wageCol :=
      match (c0 :: rest).find? (fun c => strContains (pyLower c) "июль") with
      | some c => c
      | none => (c0 :: rest).getLastD c0
    some (df.rows.foldl (excelRow df.cols c0 wageCol) [])

/-- Header token test for the region column of an HTML table
(src/main.py:65). -/
def isRegionHeaderTok (c : String) : Bool :=
  strContains (pyLower c) "регион" || strContains (pyLower c) "субъект"

/-- Header token test for the wage column of an HTML table
(src/main.py:67). -/
def isWageHeaderTok (c : String) : Bool :=
  strContains (pyLower c) "зарплат" || strContains (pyLower c) "зараб"

/-- The column-selection loop of `fetch_from_rosstat_html`
(src/main.py:62-68): iterates over all columns and reassigns on every match,
so the accumulator ends up holding the last matching column. -/
def lastMatchCol (cols : List String) (p : String → Bool) : Option String :=
  cols.foldl (fun acc c => if p c then some c else acc) none

/-- `" ".join(map(str, df.columns)).lower()` (src/main.py:60). -/
def joinLowerCols (cols : List String) : String :=
  pyLower (String.intercalate " " cols)

/-- One iteration of the row loop of `fetch_from_rosstat_html`
(src/main.py:72-77): normalize the wage cell (drop narrow no-break spaces and
spaces, comma to dot), `float` it, and store under the stripped region name;
any failure skips the row. -/
def htmlRow (cols : List String) (regionCol wageCol : String) (acc : WageTable)
    (row : List Cell) : WageTable :=
  let raw := cellStr (lookupCell cols row wageCol)
  match parsePyFloat (pyReplaceChar (pyReplaceDel (pyReplaceDel raw (Char.ofNat 8239)) ' ') ',' '.') with
  | none => acc
  | some w => dictInsert acc (pyStrip (cellStr (lookupCell cols row regionCol))) (pyRound2 w)

/-- Processing of one candidate table by `fetch_from_rosstat_html`
(src/main.py:59-79): header test on the joined lowercased column labels,
last-match column selection, Python truthiness tests on the selected labels
(`not region_col`) and on the extracted dict (`if result`).  `none` means the
loop continues with the next table. -/
def htmlTableExtract (df : DataFrame) : Option WageTable :=
  if strContains (joinLowerCols df.cols) "регион" || strContains (joinLowerCols df.cols) "субъект" then
    match lastMatchCol df.cols isRegionHeaderTok, lastMatchCol df.cols isWageHeaderTok with
    | some rc, some wc =>
      if rc = "" || wc = "" then none
      else if (df.rows.foldl (htmlRow df.cols rc wc) []).isEmpty then none
      else some (df.rows.foldl (htmlRow df.cols rc wc) [])
    | _, _ => none
  else none

/-- The table loop of `fetch_from_rosstat_html`: first table whose extraction
is non-empty wins. -/
def htmlLoop : List DataFrame → Option WageTable
  | [] => none
  | df :: rest =>
    match htmlTableExtract df with
    | some r => some r
    | none => htmlLoop rest

/-- What the network interaction of `fetch_from_rosstat_html` can observe:
`requests.get` raised, or a response arrived with an HTTP status and the
tables `pd.read_html` extracts from its body. -/
inductive FetchOutcome where
  | netError
  | resp (status : ℕ) (tables : List DataFrame)
deriving DecidableEq

/-- `fetch_from_rosstat_html` (src/main.py:53-82).  The whole body sits in a
`try` whose `except` returns `None`, so the function is total on outcomes:
a raised `requests` error, `raise_for_status` on a 4xx/5xx status, and
`pd.read_html` raising on a body with zero tables all yield `None`. -/
def fetch_from_rosstat_html : FetchOutcome → Option WageTable
  | FetchOutcome.netError => none
  | FetchOutcome.resp status tables =>
    if 400 ≤ status then none
    else if tables.isEmpty then none
    else htmlLoop tables

/-- The hardcoded default tier of `load_regions_data` (src/main.py:138-144). -/
def fallbackTable : WageTable :=
  [("Белгородская область", 75834),
   ("Владимирская область", 73240),
   ("Нижегородская область", 81230),
   ("Москва", 178596),
   ("Московская область", 115811)]

/-- The spreadsheet tier of `load_regions_data` (src/main.py:94-130): absent
file or a raised `pd.read_excel` skips the tier; an empty extraction falls
out of the `if result:` block and also falls through. -/
def excelAttempt (fs : FS) : Option WageTable :=
  match fs.excel with
  | some (ExcelFile.table df) =>
    match excelTier df with
    | some r => if r.isEmpty then none else some r
    | none => none
  | some ExcelFile.corrupt => none
  | none => none

/-- Result of one run of `load_regions_data`: the returned table, the
file-system state after the run, and whether `save_local` was called during
the run. -/
structure LoadOut where
  table : WageTable
  fs : FS
  savedSnapshot : Bool
deriving DecidableEq

/-- `load_regions_data` (src/main.py:84-146): spreadsheet tier (persists on
success), then the local JSON tier (`if local:` — `None` and the empty dict
are both falsy), then the hardcoded defaults (persisted before returning).
The call `try_load_from_local()` on line 133 is not inside any `try`, so an
exception it raises propagates. -/
def load_regions_data (fs : FS) : Except String LoadOut :=
  match excelAttempt fs with
  | some r => Except.ok ⟨r, save_local r fs, true⟩
  | none =>
    match try_load_from_local fs with
    | Except.error e => Except.error e
    | Except.ok (some loc) =>
      if loc.isEmpty then Except.ok ⟨fallbackTable, save_local fallbackTable fs, true⟩
      else Except.ok ⟨loc, fs, false⟩
    | Except.ok none => Except.ok ⟨fallbackTable, save_local fallbackTable fs, true⟩

/-- The component-level `ratMul100` is multiplication by 100. -/
theorem ratMul100_eq (q : ℚ) : ratMul100 q = q * 100 := by
  rw [ratMul100, Rat.mkRat_eq_divInt, Rat.divInt_eq_div]
  push_cast
  conv_rhs => rw [← Rat.num_div_den q]
  ring

/-- The component-level rounding agrees with the textbook round-half-to-even
description. -/
theorem roundHalfEven_eq_spec (q : ℚ) :
    roundHalfEven q =
      if q - (⌊q⌋ : ℚ) < 1 / 2 then ⌊q⌋
      else if 1 / 2 < q - (⌊q⌋ : ℚ) then ⌊q⌋ + 1
      else if ⌊q⌋ % 2 = 0 then ⌊q⌋ else ⌊q⌋ + 1 := by
  have hdenq : (0 : ℚ) < (q.den : ℚ) := by exact_mod_cast q.den_pos
  have hfl : q.num / (q.den : ℤ) = ⌊q⌋ := Rat.floor_def.symm
  have hsub : q - (⌊q⌋ : ℚ) = ((q.num : ℚ) - (⌊q⌋ : ℚ) * (q.den : ℚ)) / (q.den : ℚ) := by
    rw [sub_div, mul_div_assoc, div_self (ne_of_gt hdenq), mul_one, Rat.num_div_den]
  have hlt : (2 * (q.num - ⌊q⌋ * q.den) < (q.den : ℤ)) ↔ (q - (⌊q⌋ : ℚ) < 1 / 2) := by
    rw [hsub, div_lt_div_iff₀ hdenq (by norm_num : (0 : ℚ) < 2)]
    constructor <;> intro h
    · have h2 : ((2 * (q.num - ⌊q⌋ * q.den) : ℤ) : ℚ) < ((q.den : ℤ) : ℚ) := by
        exact_mod_cast h
      push_cast at h2
      linarith
    · have h2 : ((2 * (q.num - ⌊q⌋ * q.den) : ℤ) : ℚ) < ((q.den : ℤ) : ℚ) := by
        push_cast
        linarith
      exact_mod_cast h2
  have hgt : ((q.den : ℤ) < 2 * (q.num - ⌊q⌋ * q.den)) ↔ (1 / 2 < q - (⌊q⌋ : ℚ)) := by
    rw [hsub, div_lt_div_iff₀ (by norm_num : (0 : ℚ) < 2) hdenq]
    constructor <;> intro h
    · have h2 : (((q.den : ℤ)) : ℚ) < ((2 * (q.num - ⌊q⌋ * q.den) : ℤ) : ℚ) := by
        exact_mod_cast h
      push_cast at h2
      linarith
    · have h2 : (((q.den : ℤ)) : ℚ) < ((2 * (q.num - ⌊q⌋ * q.den) : ℤ) : ℚ) := by
        push_cast
        linarith
      exact_mod_cast h2
  unfold roundHalfEven
  rw [hfl]
  simp only [hlt, hgt]

/-- Rounding a non-negative rational to the nearest integer is non-negative. -/
theorem roundHalfEven_nonneg (q : ℚ) (h : 0 ≤ q) : 0 ≤ roundHalfEven q := by
  have hnum : 0 ≤ q.num := Rat.num_nonneg.mpr h
  have hf : 0 ≤ q.num / (q.den : ℤ) := Int.ediv_nonneg hnum (Int.natCast_nonneg _)
  unfold roundHalfEven
  split_ifs <;> omega

/-- `pyRound2` agrees with the formula `roundHalfEven (q * 100) / 100`. -/
theorem pyRound2_eq_spec (q : ℚ) :
    pyRound2 q = ((roundHalfEven (q * 100) : ℤ) : ℚ) / 100 := by
  rw [pyRound2, ratMul100_eq, Rat.mkRat_eq_divInt, Rat.divInt_eq_div]
  norm_num

/-- `pyRound2` of a non-negative rational is non-negative. -/
theorem pyRound2_nonneg (q : ℚ) (h : 0 ≤ q) : 0 ≤ pyRound2 q := by
  rw [pyRound2_eq_spec]
  have h100 : 0 ≤ roundHalfEven (q * 100) := roundHalfEven_nonneg _ (by positivity)
  have : (0 : ℚ) ≤ ((roundHalfEven (q * 100) : ℤ) : ℚ) := by exact_mod_cast h100
  positivity

/-- Every `pyRound2` value is an integer number of hundredths. -/
theorem pyRound2_decimal (q : ℚ) : ∃ n : ℤ, pyRound2 q = (n : ℚ) / 100 := by
  refine ⟨roundHalfEven (ratMul100 q), ?_⟩
  rw [pyRound2, Rat.mkRat_eq_divInt, Rat.divInt_eq_div]
  norm_num

/-- `dropWhile` is idempotent. -/
theorem dropWhile_dropWhile {α : Type} (p : α → Bool) (l : List α) :
    (l.dropWhile p).dropWhile p = l.dropWhile p := by
  induction l with
  | nil => rfl
  | cons a t ih =>
    by_cases h : p a
    · simp [List.dropWhile_cons, h, ih]
    · simp [List.dropWhile_cons, h]

/-- The head of a `dropWhile` result fails the predicate. -/
theorem head_dropWhile_false {α : Type} (p : α → Bool) (l : List α) :
    ∀ a, (l.dropWhile p).head? = some a → p a = false := by
  induction l with
  | nil => intro a h; simp at h
  | cons b t ih =>
    intro a h
    by_cases hb : p b
    · rw [List.dropWhile_cons, if_pos hb] at h
      exact ih a h
    · rw [List.dropWhile_cons, if_neg hb] at h
      simp at h
      rw [← h]
      simpa using hb

/-- `dropWhile` leaves a list whose head fails the predicate unchanged. -/
theorem dropWhile_eq_self_of_head {α : Type} (p : α → Bool) (l : List α)
    (h : ∀ a, l.head? = some a → p a = false) : l.dropWhile p = l := by
  cases l with
  | nil => rfl
  | cons a t =>
    rw [List.dropWhile_cons, if_neg]
    simp [h a rfl]

/-- A non-empty `dropWhile` result keeps the last element of the list. -/
theorem getLast_dropWhile {α : Type} (p : α → Bool) (l : List α)
    (h : l.dropWhile p ≠ []) : (l.dropWhile p).getLast? = l.getLast? := by
  induction l with
  | nil => simp at h
  | cons a t ih =>
    by_cases ha : p a
    · rw [List.dropWhile_cons, if_pos ha] at h ⊢
      have ht : t ≠ [] := by
        intro e
        rw [e] at h
        simp at h
      rw [ih h]
      cases t with
      | nil => exact absurd rfl ht
      | cons b t2 => rw [List.getLast?_cons_cons]
    · rw [List.dropWhile_cons, if_neg ha]

/-- Stripping a stripped character list changes nothing. -/
theorem pyStripL_idem (cs : List Char) : pyStripL (pyStripL cs) = pyStripL cs := by
  unfold pyStripL
  set w := Char.isWhitespace with hw
  set u := cs.dropWhile w with hu
  set v := u.reverse.dropWhile w with hv
  by_cases hvnil : v = []
  · simp [hvnil]
  · have hhead : ∀ a, v.reverse.head? = some a → w a = false := by
      intro a ha
      rw [List.head?_reverse] at ha
      rw [hv] at ha
      rw [getLast_dropWhile w u.reverse (hv ▸ hvnil)] at ha
      rw [List.getLast?_reverse] at ha
      exact head_dropWhile_false w cs a (hu ▸ ha)
    have h1 : v.reverse.dropWhile w = v.reverse := dropWhile_eq_self_of_head w v.reverse hhead
    rw [h1, List.reverse_reverse]
    have h2 : v.dropWhile w = v := by
      rw [hv, dropWhile_dropWhile]
    rw [h2]

/-- Stripping is idempotent, as in Python. -/
theorem pyStrip_idem (s : String) : pyStrip (pyStrip s) = pyStrip s :=
  congrArg String.mk (pyStripL_idem s.toList)

example : parsePyFloat "75834,5" = none := by decide
example : parsePyFloat "75834.5" = some (mkRat 151669 2) := by decide
example : parsePyFloat "-100" = some (mkRat (-100) 1) := by decide
example : pyRound2 (mkRat 151669 2) = mkRat 151669 2 := by decide
example : pyRound2 (mkRat 5 1) = 5 := by decide
example : pyLower "Центральный ОКРУГ" = "центральный округ" := by decide
example : pyStrip "  ab c " = "ab c" := by decide
example : strContains "июль 2024" "июль" = true := by decide
example :
    excelTier ⟨["Субъект", "Июль 2024"],
      [[Cell.str "Белгородская область", Cell.str "75834,5"],
       [Cell.str "Центральный округ", Cell.str "90000"]]⟩ =
    some [("Белгородская область", mkRat 151669 2)] := by decide
example :
    htmlTableExtract ⟨["Регион", "Зарплата А", "Зарплата Б"],
      [[Cell.str "X", Cell.str "100", Cell.str "200"]]⟩ =
    some [("X", mkRat 200 1)] := by decide
example :
    load_regions_data ⟨none, none⟩ =
    Except.ok ⟨fallbackTable, save_local fallbackTable ⟨none, none⟩, true⟩ := by decide
example :
    load_regions_data (save_local fallbackTable ⟨none, none⟩) =
    Except.ok ⟨fallbackTable, save_local fallbackTable ⟨none, none⟩, false⟩ := by decide

/-- Membership after a dict insertion: the new pair or an old one. -/
theorem mem_dictInsert (d : WageTable) (k : String) (v : ℚ) (kv : String × ℚ)
    (h : kv ∈ dictInsert d k v) : kv = (k, v) ∨ kv ∈ d := by
  unfold dictInsert at h
  by_cases hany : d.any (fun p => p.1 == k)
  · rw [if_pos hany] at h
    rcases List.mem_map.mp h with ⟨p, hp, he⟩
    by_cases hk : (p.1 == k) = true
    · rw [if_pos hk] at he
      left
      have hk' : p.1 = k := by simpa using hk
      rw [← he, hk']
    · rw [if_neg hk] at he
      right
      rw [← he]
      exact hp
  · rw [if_neg hany] at h
    rcases List.mem_append.mp h with h1 | h1
    · right; exact h1
    · left; simpa using h1

/-- Inserting a fresh key appends the pair. -/
theorem dictInsert_fresh (d : WageTable) (k : String) (v : ℚ)
    (h : ∀ p ∈ d, p.1 ≠ k) : dictInsert d k v = d ++ [(k, v)] := by
  have hany : d.any (fun p => p.1 == k) = false := by
    rw [List.any_eq_false]
    intro p hp
    simpa using h p hp
  unfold dictInsert
  rw [hany]
  simp

/-- Entries produced by one Excel row step: either old, or a stripped region
passing the aggregate filter paired with a rounded wage. -/
theorem excelRow_entries (cols : List String) (rc wc : String) (acc : WageTable)
    (row : List Cell) (P : String × ℚ → Prop)
    (hacc : ∀ kv ∈ acc, P kv)
    (hnew : ∀ s (q : ℚ), strContains (pyLower (pyStrip s)) "округ" = false →
      strContains (pyLower (pyStrip s)) "российская" = false →
      P (pyStrip s, pyRound2 q)) :
    ∀ kv ∈ excelRow cols rc wc acc row, P kv := by
  intro kv hkv
  simp only [excelRow] at hkv
  split at hkv
  · exact hacc kv hkv
  · split at hkv
    · exact hacc kv hkv
    · split at hkv
      · rename_i w heq hguard
        rcases mem_dictInsert _ _ _ _ hkv with he | hm
        · rw [he]
          simp only [Bool.and_eq_true, Bool.not_eq_true'] at hguard
          exact hnew _ w hguard.1 hguard.2
        · exact hacc kv hm
      · exact hacc kv hkv

/-- Entries produced by the Excel row fold. -/
theorem foldl_excelRow_entries (cols : List String) (rc wc : String)
    (rows : List (List Cell)) (P : String × ℚ → Prop)
    (hnew : ∀ s (q : ℚ), strContains (pyLower (pyStrip s)) "округ" = false →
      strContains (pyLower (pyStrip s)) "российская" = false →
      P (pyStrip s, pyRound2 q)) :
    ∀ acc : WageTable, (∀ kv ∈ acc, P kv) →
      ∀ kv ∈ rows.foldl (excelRow cols rc wc) acc, P kv := by
  induction rows with
  | nil => intro acc hacc; exact hacc
  | cons r rs ih =>
    intro acc hacc
    exact ih _ (excelRow_entries cols rc wc acc r P hacc hnew)

/-- Entries of a successful Excel-tier parse satisfy any property enjoyed by
all filtered stripped-region/rounded-wage pairs. -/
theorem excelTier_entries (df : DataFrame) (res : WageTable)
    (h : excelTier df = some res) (P : String × ℚ → Prop)
    (hnew : ∀ s (q : ℚ), strContains (pyLower (pyStrip s)) "округ" = false →
      strContains (pyLower (pyStrip s)) "российская" = false →
      P (pyStrip s, pyRound2 q)) :
    ∀ kv ∈ res, P kv := by
  unfold excelTier at h
  split at h
  · exact absurd h (by simp)
  · injection h with h
    rw [← h]
    exact foldl_excelRow_entries _ _ _ _ P hnew [] (by intro kv hk; simp at hk)

/-- Entries produced by one HTML row step: either old, or a stripped region
paired with a rounded wage (no filtering happens here). -/
theorem htmlRow_entries (cols : List String) (rc wc : String) (acc : WageTable)
    (row : List Cell) (P : String × ℚ → Prop)
    (hacc : ∀ kv ∈ acc, P kv)
    (hnew : ∀ s (q : ℚ), P (pyStrip s, pyRound2 q)) :
    ∀ kv ∈ htmlRow cols rc wc acc row, P kv := by
  intro kv hkv
  simp only [htmlRow] at hkv
  split at hkv
  · exact hacc kv hkv
  · rcases mem_dictInsert _ _ _ _ hkv with he | hm
    · rename_i w _
      rw [he]
      exact hnew _ w
    · exact hacc kv hm

/-- Entries produced by the HTML row fold. -/
theorem foldl_htmlRow_entries (cols : List String) (rc wc : String)
    (rows : List (List Cell)) (P : String × ℚ → Prop)
    (hnew : ∀ s (q : ℚ), P (pyStrip s, pyRound2 q)) :
    ∀ acc : WageTable, (∀ kv ∈ acc, P kv) →
      ∀ kv ∈ rows.foldl (htmlRow cols rc wc) acc, P kv := by
  induction rows with
  | nil => intro acc hacc; exact hacc
  | cons r rs ih =>
    intro acc hacc
    exact ih _ (htmlRow_entries cols rc wc acc r P hacc hnew)

/-- Entries of a successful single-table HTML extraction. -/
theorem htmlTableExtract_entries (df : DataFrame) (res : WageTable)
    (h : htmlTableExtract df = some res) (P : String × ℚ → Prop)
    (hnew : ∀ s (q : ℚ), P (pyStrip s, pyRound2 q)) :
    ∀ kv ∈ res, P kv := by
  unfold htmlTableExtract at h
  split at h
  · split at h
    · split at h
      · exact absurd h (by simp)
      · split at h
        · exact absurd h (by simp)
        · injection h with h
          rw [← h]
          exact foldl_htmlRow_entries _ _ _ _ P hnew [] (by intro kv hk; simp at hk)
    · exact absurd h (by simp)
  · exact absurd h (by simp)

/-- A successful single-table HTML extraction is non-empty. -/
theorem htmlTableExtract_ne_nil (df : DataFrame) (res : WageTable)
    (h : htmlTableExtract df = some res) : res ≠ [] := by
  unfold htmlTableExtract at h
  split at h
  · split at h
    · split at h
      · exact absurd h (by simp)
      · split at h
        · exact absurd h (by simp)
        · rename_i hempty
          injection h with h
          rw [← h]
          intro hnil
          rw [hnil] at hempty
          simp at hempty
    · exact absurd h (by simp)
  · exact absurd h (by simp)

/-- The table loop returns `none` when every table extracts to `none`. -/
theorem htmlLoop_none (ts : List DataFrame)
    (h : ∀ df ∈ ts, htmlTableExtract df = none) : htmlLoop ts = none := by
  induction ts with
  | nil => rfl
  | cons df rest ih =>
    simp only [htmlLoop]
    rw [h df (by simp)]
    exact ih (fun d hd => h d (by simp [hd]))

/-- The table loop returns the first successful extraction in order. -/
theorem htmlLoop_first (pre : List DataFrame) (df : DataFrame) (rest : List DataFrame)
    (r : WageTable) (hpre : ∀ d ∈ pre, htmlTableExtract d = none)
    (hdf : htmlTableExtract df = some r) :
    htmlLoop (pre ++ df :: rest) = some r := by
  induction pre with
  | nil =>
    rw [List.nil_append]
    simp only [htmlLoop]
    rw [hdf]
  | cons d pre2 ih =>
    rw [List.cons_append]
    simp only [htmlLoop]
    rw [hpre d (by simp)]
    exact ih (fun x hx => hpre x (by simp [hx]))

/-- A successful loop result comes from one of the tables. -/
theorem htmlLoop_some (ts : List DataFrame) (r : WageTable)
    (h : htmlLoop ts = some r) : ∃ df ∈ ts, htmlTableExtract df = some r := by
  induction ts with
  | nil => simp [htmlLoop] at h
  | cons df rest ih =>
    simp only [htmlLoop] at h
    split at h
    · rename_i heq
      injection h with h
      exact ⟨df, by simp, by rw [heq, h]⟩
    · rcases ih h with ⟨d, hd, he⟩
      exact ⟨d, by simp [hd], he⟩

/-- Unfolding `fetch_from_rosstat_html` on a response outcome. -/
theorem fetch_resp_eq (st : ℕ) (tables : List DataFrame) :
    fetch_from_rosstat_html (FetchOutcome.resp st tables) =
      if 400 ≤ st then none
      else if tables.isEmpty = true then none
      else htmlLoop tables := rfl

/-- The reassigning loop keeps the last matching column. -/
theorem foldl_lastMatch_aux (p : String → Bool) (cols : List String) :
    ∀ acc : Option String,
      cols.foldl (fun a c => if p c then some c else a) acc =
        match (cols.filter p).getLast? with
        | some c => some c
        | none => acc := by
  induction cols with
  | nil => intro acc; rfl
  | cons c t ih =>
    intro acc
    rw [List.foldl_cons]
    by_cases h : p c
    · rw [if_pos h, ih (some c), List.filter_cons_of_pos h]
      cases hft : t.filter p with
      | nil => simp [hft]
      | cons x xs =>
        rw [List.getLast?_cons_cons]
        cases hgl : (x :: xs).getLast? with
        | none => simp [List.getLast?_eq_none_iff] at hgl
        | some y => rfl
    · rw [if_neg h, ih acc, List.filter_cons_of_neg h]

/-- The column selection of `fetch_from_rosstat_html` picks the last matching
column label. -/
theorem lastMatchCol_eq_filter (p : String → Bool) (cols : List String) :
    lastMatchCol cols p = (cols.filter p).getLast? := by
  rw [lastMatchCol, foldl_lastMatch_aux]
  cases (cols.filter p).getLast? <;> rfl

/-- `hexVal` reads back what `hexDig` writes. -/
theorem hexVal_hexDig (x : ℕ) (h : x < 16) : hexVal (hexDig x) = some x := by
  interval_cases x <;> decide

/-- Reading a `\u00XY` escape produced for a control character. -/
theorem decode_u_escape (a b : ℕ) (ha : a < 16) (hb : b < 16) (rest : List Char) :
    decodeJsonChars ('\\' :: 'u' :: '0' :: '0' :: hexDig a :: hexDig b :: rest) =
      (decodeJsonChars rest).map (fun l => Char.ofNat (a * 16 + b) :: l) := by
  rw [decodeJsonChars.eq_def]
  simp only [hexVal_hexDig a ha, hexVal_hexDig b hb, (by decide : hexVal '0' = some 0)]
  norm_num

/-- Reading one character that was written without escaping. -/
theorem decode_plain (c : Char) (h1 : ¬c = '\\') (h2 : ¬c = '"') (rest : List Char) :
    decodeJsonChars (c :: rest) = (decodeJsonChars rest).map (fun l => c :: l) := by
  rw [decodeJsonChars.eq_def]
  dsimp only
  rw [if_neg h1, if_neg h2]

/-- Reading back one encoded character recovers it and continues. -/
theorem decode_encode_cons (c : Char) (rest : List Char) :
    decodeJsonChars (encodeJsonChar c ++ rest) =
      (decodeJsonChars rest).map (fun l => c :: l) := by
  by_cases h1 : c = '"'
  · rw [h1]
    rw [show encodeJsonChar '"' ++ rest = '\\' :: '"' :: rest from rfl]
    rw [decodeJsonChars.eq_def]
    simp [unescapeChar]
  by_cases h2 : c = '\\'
  · rw [h2]
    rw [show encodeJsonChar '\\' ++ rest = '\\' :: '\\' :: rest from rfl]
    rw [decodeJsonChars.eq_def]
    simp [unescapeChar]
  by_cases h3 : c = Char.ofNat 8
  · rw [h3]
    rw [show encodeJsonChar (Char.ofNat 8) ++ rest = '\\' :: 'b' :: rest from rfl]
    rw [decodeJsonChars.eq_def]
    simp [unescapeChar]
  by_cases h4 : c = Char.ofNat 9
  · rw [h4]
    rw [show encodeJsonChar (Char.ofNat 9) ++ rest = '\\' :: 't' :: rest from rfl]
    rw [decodeJsonChars.eq_def]
    simp [unescapeChar]
  by_cases h5 : c = Char.ofNat 10
  · rw [h5]
    rw [show encodeJsonChar (Char.ofNat 10) ++ rest = '\\' :: 'n' :: rest from rfl]
    rw [decodeJsonChars.eq_def]
    simp [unescapeChar]
  by_cases h6 : c = Char.ofNat 12
  · rw [h6]
    rw [show encodeJsonChar (Char.ofNat 12) ++ rest = '\\' :: 'f' :: rest from rfl]
    rw [decodeJsonChars.eq_def]
    simp [unescapeChar]
  by_cases h7 : c = Char.ofNat 13
  · rw [h7]
    rw [show encodeJsonChar (Char.ofNat 13) ++ rest = '\\' :: 'r' :: rest from rfl]
    rw [decodeJsonChars.eq_def]
    simp [unescapeChar]
  by_cases hctl : c.toNat < 32
  · have e1 : encodeJsonChar c =
        ['\\', 'u', '0', '0', hexDig (c.toNat / 16), hexDig (c.toNat % 16)] := by
      unfold encodeJsonChar
      rw [if_neg h1, if_neg h2, if_neg h3, if_neg h4, if_neg h5, if_neg h6, if_neg h7,
        if_pos hctl]
    rw [e1]
    rw [show ('\\' :: 'u' :: '0' :: '0' :: hexDig (c.toNat / 16) :: hexDig (c.toNat % 16) :: [])
          ++ rest =
        '\\' :: 'u' :: '0' :: '0' :: hexDig (c.toNat / 16) :: hexDig (c.toNat % 16) :: rest
        from rfl]
    rw [decode_u_escape _ _ (by omega) (by omega)]
    have harg : c.toNat / 16 * 16 + c.toNat % 16 = c.toNat := by omega
    rw [harg, Char.ofNat_toNat]
  · have e1 : encodeJsonChar c = [c] := by
      unfold encodeJsonChar
      rw [if_neg h1, if_neg h2, if_neg h3, if_neg h4, if_neg h5, if_neg h6, if_neg h7,
        if_neg hctl]
    rw [e1]
    rw [show [c] ++ rest = c :: rest from rfl]
    exact decode_plain c h2 h1 rest

/-- Reading back a fully encoded character list recovers it. -/
theorem decode_encode_list (cs : List Char) :
    decodeJsonChars ((cs.map encodeJsonChar).flatten) = some cs := by
  induction cs with
  | nil => rfl
  | cons c t ih =>
    rw [List.map_cons, List.flatten_cons, decode_encode_cons, ih]
    rfl

/-- String-level round trip of the `ensure_ascii=False` JSON string encoding. -/
theorem decodeJsonStr_encodeJsonStr (s : String) :
    decodeJsonStr (encodeJsonStr s) = some s := by
  unfold decodeJsonStr encodeJsonStr
  rw [show (String.mk (s.toList.map encodeJsonChar).flatten).toList =
      (s.toList.map encodeJsonChar).flatten from rfl]
  rw [decode_encode_list]
  rfl

/-- A character that needs no escape is written verbatim by the encoder. -/
theorem encodeJsonChar_verbatim (c : Char) (h1 : c ≠ '"') (h2 : c ≠ '\\')
    (h3 : 32 ≤ c.toNat) : encodeJsonChar c = [c] := by
  have h8 : c ≠ Char.ofNat 8 := by
    intro he; rw [he] at h3; exact absurd h3 (by decide)
  have h9 : c ≠ Char.ofNat 9 := by
    intro he; rw [he] at h3; exact absurd h3 (by decide)
  have h10 : c ≠ Char.ofNat 10 := by
    intro he; rw [he] at h3; exact absurd h3 (by decide)
  have h12 : c ≠ Char.ofNat 12 := by
    intro he; rw [he] at h3; exact absurd h3 (by decide)
  have h13 : c ≠ Char.ofNat 13 := by
    intro he; rw [he] at h3; exact absurd h3 (by decide)
  have hctl : ¬c.toNat < 32 := by omega
  unfold encodeJsonChar
  rw [if_neg h1, if_neg h2, if_neg h8, if_neg h9, if_neg h10, if_neg h12, if_neg h13,
    if_neg hctl]


/-- Folding the decoder over encoded entries with distinct keys rebuilds the
table behind any already-decoded prefix. -/
theorem decodeEntries_encode_aux (t : WageTable) :
    ∀ acc : WageTable,
      ((acc ++ t).map Prod.fst).Nodup →
      (t.map (fun p => (encodeJsonStr p.1, p.2))).foldl
        (fun acc2 e =>
          match acc2, decodeJsonStr e.1 with
          | some d, some k => some (dictInsert d k e.2)
          | _, _ => none)
        (some acc) = some (acc ++ t) := by
  induction t with
  | nil => intro acc _; simp
  | cons kv t ih =>
    intro acc h
    simp only [List.map_cons, List.foldl_cons, decodeJsonStr_encodeJsonStr]
    have hfresh : dictInsert acc kv.1 kv.2 = acc ++ [kv] := by
      apply dictInsert_fresh
      intro p hp he
      have hmap : ((acc ++ kv :: t).map Prod.fst) =
          acc.map Prod.fst ++ kv.1 :: t.map Prod.fst := by simp
      rw [hmap] at h
      have h3 := List.nodup_middle.mp h
      rw [List.nodup_cons] at h3
      exact h3.1 (List.mem_append.mpr (Or.inl (he ▸ List.mem_map_of_mem Prod.fst hp)))
    rw [hfresh]
    have h2 : (((acc ++ [kv]) ++ t).map Prod.fst).Nodup := by
      rw [List.append_assoc]
      simpa using h
    rw [ih (acc ++ [kv]) h2]
    simp

/-- Decoding the encoded form of a table with distinct keys gives it back. -/
theorem decodeEntries_encode (t : WageTable) (h : (t.map Prod.fst).Nodup) :
    decodeEntries (t.map (fun p => (encodeJsonStr p.1, p.2))) = some t := by
  have := decodeEntries_encode_aux t [] (by simpa using h)
  simpa [decodeEntries] using this

/-- `try_load_from_local` after `save_local` reproduces the saved table. -/
theorem tryLoad_saveLocal (t : WageTable) (fs : FS) (h : (t.map Prod.fst).Nodup) :
    try_load_from_local (save_local t fs) = Except.ok (some t) := by
  have e1 : try_load_from_local (save_local t fs) =
      match decodeEntries (t.map (fun p => (encodeJsonStr p.1, p.2))) with
      | some tt => Except.ok (some tt)
      | none => Except.error "json.decoder.JSONDecodeError" := rfl
  rw [e1, decodeEntries_encode t h]

/-- C1: for every income strictly greater than 0 and every list of
non-negative payments (including the empty list), `calculate_pdn income
payments` returns `round(100 * sum(payments) / income, 2)`, which is
non-negative; in particular `calculate_pdn 1000 [] = 0.0`. -/
theorem c1_calculate_pdn_formula (income : ℚ) (payments : List ℚ)
    (hinc : 0 < income) (hpay : ∀ p ∈ payments, 0 ≤ p) :
    calculate_pdn income payments = Except.ok (pyRound2 (100 * payments.sum / income)) ∧
    0 ≤ pyRound2 (100 * payments.sum / income) ∧
    calculate_pdn 1000 [] = Except.ok 0 := by
  have hsum : 0 ≤ payments.sum := List.sum_nonneg hpay
  have harg : payments.sum / income * 100 = 100 * payments.sum / income := by ring
  refine ⟨?_, ?_, ?_⟩
  · unfold calculate_pdn
    rw [if_neg (not_le.mpr hinc), harg]
  · exact pyRound2_nonneg _ (by positivity)
  · have e1 : calculate_pdn 1000 [] =
        Except.ok (pyRound2 (([] : List ℚ).sum / 1000 * 100)) := by
      unfold calculate_pdn
      rw [if_neg (by norm_num)]
    have e2 : ([] : List ℚ).sum / 1000 * 100 = 0 := by norm_num
    rw [e1, e2, show pyRound2 0 = 0 from by decide]

/-- C1 witness: a concrete application of the theorem. -/
theorem c1_witness :
    calculate_pdn 200 [50, 30] =
      Except.ok (pyRound2 (100 * ([50, 30] : List ℚ).sum / 200)) ∧
    calculate_pdn 1000 [] = Except.ok 0 :=
  ⟨(c1_calculate_pdn_formula 200 [50, 30] (by decide) (by decide)).1,
   (c1_calculate_pdn_formula 200 [50, 30] (by decide) (by decide)).2.2⟩

/-- C2: `calculate_pdn income payments` fails with the InvalidInput error iff
`income ≤ 0`; for every positive income it returns a value; and the error
outcome never depends on the payments list. -/
theorem c2_error_iff_income_nonpositive (income : ℚ) (ps qs : List ℚ) :
    ((∃ e, calculate_pdn income ps = Except.error e) ↔ income ≤ 0) ∧
    (0 < income → ∃ v, calculate_pdn income ps = Except.ok v) ∧
    (income ≤ 0 →
      calculate_pdn income ps = Except.error "Доход должен быть больше 0" ∧
      calculate_pdn income ps = calculate_pdn income qs) := by
  by_cases h : income ≤ 0
  · have e1 : calculate_pdn income ps = Except.error "Доход должен быть больше 0" := by
      unfold calculate_pdn
      rw [if_pos h]
    have e2 : calculate_pdn income qs = Except.error "Доход должен быть больше 0" := by
      unfold calculate_pdn
      rw [if_pos h]
    refine ⟨⟨fun _ => h, fun _ => ⟨"Доход должен быть больше 0", e1⟩⟩,
      fun hc => absurd h (not_le.mpr hc), fun _ => ⟨e1, by rw [e1, e2]⟩⟩
  · have e1 : calculate_pdn income ps =
        Except.ok (pyRound2 (ps.sum / income * 100)) := by
      unfold calculate_pdn
      rw [if_neg h]
    refine ⟨⟨?_, fun hc => absurd hc h⟩, fun _ => ⟨_, e1⟩, fun hc => absurd hc h⟩
    rintro ⟨e, he⟩
    rw [e1] at he
    exact absurd he (by simp)

/-- C2 witness: a concrete application of the theorem. -/
theorem c2_witness :
    calculate_pdn (-5) [1, 2] = Except.error "Доход должен быть больше 0" ∧
    calculate_pdn (-5) [1, 2] = calculate_pdn (-5) [7] :=
  (c2_error_iff_income_nonpositive (-5) [1, 2] [7]).2.2 (by decide)

/-- C3: with no spreadsheet and no snapshot, `load_regions_data` returns the
5 hardcoded defaults and persists them via `save_local` before returning; a
second run (still no spreadsheet) returns an equal mapping from the cache
tier without re-saving. -/
theorem c3_defaults_then_cache :
    fallbackTable.length = 5 ∧
    load_regions_data ⟨none, none⟩ =
      Except.ok ⟨fallbackTable, save_local fallbackTable ⟨none, none⟩, true⟩ ∧
    load_regions_data (save_local fallbackTable ⟨none, none⟩) =
      Except.ok ⟨fallbackTable, save_local fallbackTable ⟨none, none⟩, false⟩ := by
  refine ⟨rfl, by decide, by decide⟩

/-- C4: the spreadsheet-tier table parsing excludes every row whose region
name, compared case-insensitively, contains an aggregate marker token
("округ", "российская"); on the table with headers ["Субъект", "Июль 2024"],
one leaf-region row and one "Центральный округ" row, it yields a mapping
that contains the leaf region and excludes the округ row. -/
theorem c4_aggregate_rows_excluded :
    (∀ df res, excelTier df = some res → ∀ kv ∈ res,
      strContains (pyLower kv.1) "округ" = false ∧
      strContains (pyLower kv.1) "российская" = false) ∧
    excelTier ⟨["Субъект", "Июль 2024"],
      [[Cell.str "Белгородская область", Cell.str "75834,5"],
       [Cell.str "Центральный округ", Cell.str "90000"]]⟩ =
      some [("Белгородская область", mkRat 151669 2)] := by
  constructor
  · intro df res h kv hkv
    exact excelTier_entries df res h
      (fun kv2 => strContains (pyLower kv2.1) "округ" = false ∧
        strContains (pyLower kv2.1) "российская" = false)
      (fun s q h1 h2 => ⟨h1, h2⟩) kv hkv
  · decide

/-- C4 witness: a concrete application of the theorem. -/
theorem c4_witness :
    strContains (pyLower "Белгородская область") "округ" = false ∧
    strContains (pyLower "Белгородская область") "российская" = false :=
  c4_aggregate_rows_excluded.1 _ _ c4_aggregate_rows_excluded.2
    ("Белгородская область", mkRat 151669 2) (by decide)

/-- C5: `save_local` followed by `try_load_from_local` reproduces every wage
table with distinct keys exactly, and the `ensure_ascii=False` encoding
writes every string without quote, backslash or control characters — all
non-ASCII characters included — verbatim, with no escaping. -/
theorem c5_snapshot_roundtrip (t : WageTable) (fs : FS)
    (h : (t.map Prod.fst).Nodup) :
    try_load_from_local (save_local t fs) = Except.ok (some t) ∧
    (∀ s : String, (∀ c ∈ s.toList, c ≠ '"' ∧ c ≠ '\\' ∧ 32 ≤ c.toNat) →
      encodeJsonStr s = s) := by
  refine ⟨tryLoad_saveLocal t fs h, ?_⟩
  intro s hs
  have hlist : ∀ cs : List Char, (∀ c ∈ cs, c ≠ '"' ∧ c ≠ '\\' ∧ 32 ≤ c.toNat) →
      (cs.map encodeJsonChar).flatten = cs := by
    intro cs
    induction cs with
    | nil => intro _; rfl
    | cons c t2 ih =>
      intro hc
      rw [List.map_cons, List.flatten_cons,
        encodeJsonChar_verbatim c (hc c (by simp)).1 (hc c (by simp)).2.1
          (hc c (by simp)).2.2,
        ih (fun x hx => hc x (by simp [hx]))]
      rfl
  unfold encodeJsonStr
  rw [hlist s.toList hs]
  cases s
  rfl

/-- C5 witness: a concrete application of the theorem with Cyrillic keys. -/
theorem c5_witness :
    try_load_from_local (save_local
        [("Москва", 178596), ("Ярославская область", mkRat 151669 2)] ⟨none, none⟩) =
      Except.ok (some [("Москва", 178596), ("Ярославская область", mkRat 151669 2)]) :=
  (c5_snapshot_roundtrip
    [("Москва", 178596), ("Ярославская область", mkRat 151669 2)] ⟨none, none⟩
    (by decide)).1

/-- C6 counterexample: on a snapshot file with malformed content the load does
not return null; it raises the JSON decode error. -/
theorem c6_counterexample :
    try_load_from_local ⟨none, some SnapContent.garbage⟩ =
      Except.error "json.decoder.JSONDecodeError" ∧
    try_load_from_local ⟨none, some SnapContent.garbage⟩ ≠ Except.ok none := by
  exact ⟨rfl, by decide⟩

/-- C6 (amended): `try_load_from_local` returns null when the snapshot file
is absent; when the file exists with malformed content the JSON decode error
raises and propagates out of `load_regions_data` instead of falling through
to the next tier. -/
theorem c6_amended_load (fs : FS) :
    (fs.snapshot = none → try_load_from_local fs = Except.ok none) ∧
    (fs.snapshot = some SnapContent.garbage →
      try_load_from_local fs = Except.error "json.decoder.JSONDecodeError") ∧
    load_regions_data ⟨none, some SnapContent.garbage⟩ =
      Except.error "json.decoder.JSONDecodeError" := by
  refine ⟨?_, ?_, by decide⟩
  · intro h
    unfold try_load_from_local
    rw [h]
  · intro h
    unfold try_load_from_local
    rw [h]

/-- C6 witness: a concrete application of the amended theorem. -/
theorem c6_witness : try_load_from_local ⟨none, none⟩ = Except.ok none :=
  (c6_amended_load ⟨none, none⟩).1 rfl

/-- C7: `fetch_from_rosstat_html` returns null on a network error, on any
4xx/5xx status, on a body with zero tables, and when no table yields a
non-empty mapping; extractions are non-empty when successful, and the first
table (in document order) whose extraction is non-empty provides the result.
The function is total on fetch outcomes: every failure is mapped to `none`
rather than an exception. -/
theorem c7_fetch_total :
    fetch_from_rosstat_html FetchOutcome.netError = none ∧
    (∀ st tables, 400 ≤ st →
      fetch_from_rosstat_html (FetchOutcome.resp st tables) = none) ∧
    (∀ st, fetch_from_rosstat_html (FetchOutcome.resp st []) = none) ∧
    (∀ st tables, st < 400 → (∀ df ∈ tables, htmlTableExtract df = none) →
      fetch_from_rosstat_html (FetchOutcome.resp st tables) = none) ∧
    (∀ df res, htmlTableExtract df = some res → res ≠ []) ∧
    (∀ st pre df rest res, st < 400 → (∀ d ∈ pre, htmlTableExtract d = none) →
      htmlTableExtract df = some res →
      fetch_from_rosstat_html (FetchOutcome.resp st (pre ++ df :: rest)) = some res) := by
  refine ⟨rfl, ?_, ?_, ?_, htmlTableExtract_ne_nil, ?_⟩
  · intro st tables h
    rw [fetch_resp_eq, if_pos h]
  · intro st
    rw [fetch_resp_eq]
    by_cases h : 400 ≤ st
    · rw [if_pos h]
    · rw [if_neg h]
      rfl
  · intro st tables h1 h2
    rw [fetch_resp_eq, if_neg (by omega)]
    by_cases he : tables.isEmpty
    · rw [if_pos he]
    · rw [if_neg he]
      exact htmlLoop_none tables h2
  · intro st pre df rest res hst hpre hdf
    rw [fetch_resp_eq, if_neg (by omega), if_neg (by simp)]
    exact htmlLoop_first pre df rest res hpre hdf

/-- C7 witness: a concrete application of the theorem. -/
theorem c7_witness :
    fetch_from_rosstat_html (FetchOutcome.resp 503 [⟨["Регион", "Зарплата"], []⟩]) = none :=
  c7_fetch_total.2.1 503 [⟨["Регион", "Зарплата"], []⟩] (by decide)

/-- C8 counterexample: with two headers matching the wage token, the parser
selects the last matching column, not the first: the extracted wage is the
value 200 from "Зарплата Б", not 100 from "Зарплата А". -/
theorem c8_counterexample :
    lastMatchCol ["Регион", "Зарплата А", "Зарплата Б"] isWageHeaderTok =
      some "Зарплата Б" ∧
    "Зарплата Б" ≠ "Зарплата А" ∧
    fetch_from_rosstat_html (FetchOutcome.resp 200
        [⟨["Регион", "Зарплата А", "Зарплата Б"],
          [[Cell.str "X", Cell.str "100", Cell.str "200"]]⟩]) =
      some [("X", mkRat 200 1)] ∧
    mkRat 200 1 ≠ mkRat 100 1 := by
  refine ⟨by decide, by decide, by decide, by decide⟩

/-- C8 (amended): the wage-column selection of `fetch_from_rosstat_html` is
deterministic and selects the last header matching the wage token (the loop
reassigns on every match). -/
theorem c8_amended_last_match (cols : List String) :
    lastMatchCol cols isWageHeaderTok = (cols.filter isWageHeaderTok).getLast? :=
  lastMatchCol_eq_filter isWageHeaderTok cols

/-- C9 counterexample: the spreadsheet tier can produce an empty key (a
whitespace-only region cell) and a negative value (a negative wage cell), so
the claimed invariant fails. -/
theorem c9_counterexample :
    excelTier ⟨["Субъект", "Июль 2024"],
      [[Cell.str "   ", Cell.str "5"], [Cell.str "Тверская область", Cell.str "-100"]]⟩ =
      some [("", mkRat 5 1), ("Тверская область", mkRat (-100) 1)] ∧
    ¬(∀ kv ∈ [(("" : String), mkRat 5 1), ("Тверская область", mkRat (-100) 1)],
        kv.1 ≠ "" ∧ 0 ≤ kv.2) := by
  refine ⟨by decide, by decide⟩

/-- C9 (amended): every mapping produced by the spreadsheet parse, the HTML
fetch or the hardcoded defaults has keys invariant under trimming and values
that are integer numbers of hundredths (rounded to 2 decimal places); keys
may be empty and values may be negative. -/
theorem c9_amended_invariant :
    (∀ df res, excelTier df = some res → ∀ kv ∈ res,
      pyStrip kv.1 = kv.1 ∧ ∃ n : ℤ, kv.2 = (n : ℚ) / 100) ∧
    (∀ o res, fetch_from_rosstat_html o = some res → ∀ kv ∈ res,
      pyStrip kv.1 = kv.1 ∧ ∃ n : ℤ, kv.2 = (n : ℚ) / 100) ∧
    (∀ kv ∈ fallbackTable, pyStrip kv.1 = kv.1 ∧ ∃ n : ℤ, kv.2 = (n : ℚ) / 100) := by
  refine ⟨?_, ?_, ?_⟩
  · intro df res h kv hkv
    exact excelTier_entries df res h
      (fun kv2 => pyStrip kv2.1 = kv2.1 ∧ ∃ n : ℤ, kv2.2 = (n : ℚ) / 100)
      (fun s q _ _ => ⟨pyStrip_idem s, pyRound2_decimal q⟩) kv hkv
  · intro o res h kv hkv
    cases o with
    | netError => simp [fetch_from_rosstat_html] at h
    | resp st tables =>
      rw [fetch_resp_eq] at h
      split at h
      · exact absurd h (by simp)
      · split at h
        · exact absurd h (by simp)
        · rcases htmlLoop_some tables res h with ⟨df, _, he⟩
          exact htmlTableExtract_entries df res he
            (fun kv2 => pyStrip kv2.1 = kv2.1 ∧ ∃ n : ℤ, kv2.2 = (n : ℚ) / 100)
            (fun s q => ⟨pyStrip_idem s, pyRound2_decimal q⟩) kv hkv
  · intro kv hkv
    simp only [fallbackTable, List.mem_cons, List.not_mem_nil, or_false] at hkv
    rcases hkv with h1 | h1 | h1 | h1 | h1 <;> rw [h1]
    · exact ⟨by decide, 7583400, by norm_num⟩
    · exact ⟨by decide, 7324000, by norm_num⟩
    · exact ⟨by decide, 8123000, by norm_num⟩
    · exact ⟨by decide, 17859600, by norm_num⟩
    · exact ⟨by decide, 11581100, by norm_num⟩

/-- C9 witness: a concrete application of the amended theorem. -/
theorem c9_witness :
    pyStrip "Москва" = "Москва" ∧ ∃ n : ℤ, (178596 : ℚ) = (n : ℚ) / 100 :=
  c9_amended_invariant.2.2 ("Москва", 178596) (by decide)

/-- C10: a snapshot file holding an empty mapping is treated like an absent
cache: the loader does not return the empty dict (it is falsy), proceeds to
the default tier, returns the 5 hardcoded defaults, and overwrites the
snapshot with them. -/
theorem c10_empty_snapshot_like_absent :
    load_regions_data ⟨none, some (SnapContent.obj [])⟩ =
      Except.ok ⟨fallbackTable,
        save_local fallbackTable ⟨none, some (SnapContent.obj [])⟩, true⟩ ∧
    (save_local fallbackTable ⟨none, some (SnapContent.obj [])⟩).snapshot ≠
      some (SnapContent.obj []) ∧
    fallbackTable ≠ [] := by
  refine ⟨by decide, by decide, by decide⟩
